import Mathlib

/-!
Verification development for the MLPipeline repository.

The visible source consists of `MLPipeline/consumable.py` (the `Consumable`
value type) and `MLPipeline/pipeline_builder.py` (the `Builder` class whose
`build_pipeline` turns a parsed definition tree plus command-line inputs into
a `Pipeline`).  The modules `MLPipeline/pipeline.py` (class `Pipeline`),
`MLPipeline/pipeline_task.py` (class `TaskFactory`) and `MLPipeline/utils.py`
(`is_subset_of`, `list_of_dicts_to_dict`) are referenced by the visible code
but are not part of the visible source; the definitions below that embed them
are modelled from the specification and are marked as such in their doc
comments.

The definition tree handed to the builder is a parsed YAML document: nested
strings, sequences and mappings.  We embed it as the inductive type `Yaml`.
Mappings are association lists with string keys (YAML mappings have unique
keys; lookups take the first match).  Python-level failures that are not
`PipelineParsingError` (an `AttributeError` from calling `.keys()` on a
non-mapping, a `TypeError` from an unexpected keyword argument or an
unhashable dictionary probe) are embedded as the error constructor
`Err.typeError`.  `build_pipeline` is embedded with its `bad_yaml` parameter
fixed to its default `False`: the `bad_yaml=True` branch goes through
`utils.list_of_dicts_to_dict`, which is neither in the visible source nor
described by the specification.
-/

namespace MLPipeline

/-- A parsed YAML value: a string scalar, a sequence, or a mapping with
string keys represented as an association list. -/
inductive Yaml : Type where
  | str (s : String)
  | seq (items : List Yaml)
  | map (entries : List (String × Yaml))

/-- Lookup in a YAML mapping given as an association list (first match),
embedding Python's `dict.get` / `dict[key]` on parsed YAML mappings. -/
def ymGet (entries : List (String × Yaml)) (k : String) : Option Yaml :=
  (entries.find? (fun kv => kv.1 == k)).map (fun kv => kv.2)

/-- The key list of a YAML mapping, embedding Python's `list(d.keys())`. -/
def ymKeys (entries : List (String × Yaml)) : List String :=
  entries.map (fun kv => kv.1)

/-- Python truthiness of a parsed YAML value: empty strings, sequences and
mappings are falsy, everything else is truthy. -/
def Yaml.truthy : Yaml → Bool
  | Yaml.str s => s != ""
  | Yaml.seq items => !items.isEmpty
  | Yaml.map entries => !entries.isEmpty

/-- Python iteration over a parsed YAML value: a string yields its characters
as one-character strings, a sequence yields its items, a mapping yields its
keys.  Every `Yaml` value is iterable, so this is total. -/
def pyIter : Yaml → List Yaml
  | Yaml.str s => s.data.map (fun c => Yaml.str (String.mk [c]))
  | Yaml.seq items => items
  | Yaml.map entries => entries.map (fun kv => Yaml.str kv.1)

/-- Lookup in a string-valued dictionary (the command-line inputs). -/
def lookupStr (m : List (String × String)) (k : String) : Option String :=
  (m.find? (fun kv => kv.1 == k)).map (fun kv => kv.2)

/-- Embedding of `MLPipeline/consumable.py`, class `Consumable`: a plain
carrier of `content`, `name` and `parent_task_name`, assigned in this order
by `__init__` with no validation whatsoever. -/
structure Consumable : Type where
  content : String
  name : String
  parent_task_name : String
deriving DecidableEq

/-- Embedding of `Consumable.__init__(self, name, content, parent_task_name='')`:
the parameters in source order, with `parent_task_name` defaulting to the
empty string.  The body only stores the three fields. -/
def Consumable.make (name content : String) (parent_task_name : String := "") :
    Consumable :=
  { content := content, name := name, parent_task_name := parent_task_name }

/-- Embedding of the property `Consumable.full_name`: if `parent_task_name`
is truthy (non-empty) the dotted form, otherwise the bare name.  It is a
derived function of the stored fields, not a stored field of `Consumable`. -/
def Consumable.full_name (c : Consumable) : String :=
  if c.parent_task_name ≠ "" then c.parent_task_name ++ "." ++ c.name
  else c.name

/-- The failure modes of pipeline assembly and resolution.  `parsingError`
embeds `PipelineParsingError` raised by the visible builder;
`invalidTaskDefinition`, `duplicateOutputDefinition`, `unresolvedReference`
and `cyclicDependency` are the specification's validation errors;
`typeError` embeds Python-level `TypeError`/`AttributeError`/`KeyError`
failures that are not `PipelineParsingError`. -/
inductive Err : Type where
  | parsingError (msg : String)
  | invalidTaskDefinition (msg : String)
  | typeError (msg : String)
  | duplicateOutputDefinition (name : String)
  | unresolvedReference (task : String) (ref : String)
  | cyclicDependency (task : String)
deriving DecidableEq

/-- One pipeline step, per the specification's data model: a name, a runner
type key, the declared input references (task-local parameter name mapped to
the full name it depends on) and the declared output names. -/
structure Task : Type where
  name : String
  runner_type : String
  input_refs : List (String × String)
  declared_outputs : List String
deriving DecidableEq

/-- Converts a list of YAML values to strings when every item is a string
scalar. -/
def strItems : List Yaml → Option (List String)
  | [] => some []
  | Yaml.str s :: rest => (strItems rest).map (fun ss => s :: ss)
  | _ :: _ => none

/-- Converts a YAML mapping's values to strings when every value is a string
scalar. -/
def strMapValues : List (String × Yaml) → Option (List (String × String))
  | [] => some []
  | (k, Yaml.str s) :: rest => (strMapValues rest).map (fun ss => (k, s) :: ss)
  | _ :: _ => none

/-- Modelled from the spec: `utils.is_subset_of` from `MLPipeline/utils.py`
is not in the visible source; per its name and its use for required-key
checks it decides whether every element of the first list occurs in the
second. -/
def is_subset_of (xs ys : List String) : Bool :=
  xs.all (fun x => ys.contains x)

/-- Modelled from the spec: `TaskFactory.spawn_task` from
`MLPipeline/pipeline_task.py` is not in the visible source.  Per section 4.3
of the specification it validates that the declared inputs form a mapping
whose values are non-empty reference strings and that the declared outputs
form a non-empty sequence of unique names, failing with
`InvalidTaskDefinition` naming the malformed field; runner lookup is
deferred to execution time, so the runner key is only required to be a
string.  On success it constructs the `Task` with the given name. -/
def spawn_task (task_name : String) (runner inputs outputs : Yaml) :
    Except Err Task :=
  match runner with
  | Yaml.str runner_type =>
      match inputs with
      | Yaml.map ikvs =>
          match strMapValues ikvs with
          | some input_refs =>
              if input_refs.all (fun kv => kv.2 != "") then
                match outputs with
                | Yaml.seq os =>
                    match strItems os with
                    | some outs =>
                        if outs.isEmpty then
                          Except.error (Err.invalidTaskDefinition
                            (task_name ++ ": outputs must be non-empty"))
                        else if outs.Nodup then
                          Except.ok (Task.mk task_name runner_type input_refs outs)
                        else
                          Except.error (Err.invalidTaskDefinition
                            (task_name ++ ": outputs must be unique"))
                    | none =>
                        Except.error (Err.invalidTaskDefinition
                          (task_name ++ ": outputs must be names"))
                | _ =>
                    Except.error (Err.invalidTaskDefinition
                      (task_name ++ ": outputs must be a sequence"))
              else
                Except.error (Err.invalidTaskDefinition
                  (task_name ++ ": input references must be non-empty strings"))
          | none =>
              Except.error (Err.invalidTaskDefinition
                (task_name ++ ": input references must be strings"))
      | _ =>
          Except.error (Err.invalidTaskDefinition
            (task_name ++ ": inputs must be a mapping"))
  | _ =>
      Except.error (Err.invalidTaskDefinition
        (task_name ++ ": runner must be a string"))

/-- Embedding of one iteration of the components loop of
`Builder.build_pipeline` (pipeline_builder.py lines 112-130, `bad_yaml`
fixed to `False`): a component whose length is not 1 raises
`PipelineParsingError`; a singleton non-mapping crashes at
`list(component_dict.keys())` style attribute access (embedded as
`Err.typeError`); a singleton mapping is destructured into its single key
`c_name` and body, the body must be a mapping (else the `.keys()` call is an
attribute error), the required keys `runner`, `inputs`, `outputs` are
checked with `is_subset_of` (else `PipelineParsingError` naming the
component), an extra key would be an unexpected keyword argument to
`spawn_task` (a Python `TypeError`), and finally `spawn_task` is called. -/
def parseComponent (component : Yaml) : Except Err Task :=
  match component with
  | Yaml.map kvs =>
      match kvs with
      | [(c_name, body)] =>
          (match body with
           | Yaml.map bkvs =>
               if is_subset_of ["runner", "inputs", "outputs"] (ymKeys bkvs) then
                 if is_subset_of (ymKeys bkvs) ["runner", "inputs", "outputs"] then
                   match ymGet bkvs "runner", ymGet bkvs "inputs", ymGet bkvs "outputs" with
                   | some r, some i, some o => spawn_task c_name r i o
                   | _, _, _ =>
                       Except.error (Err.typeError "missing required keyword argument")
                 else Except.error (Err.typeError "unexpected keyword argument")
               else
                 Except.error (Err.parsingError
                   ("Component " ++ c_name ++ " missing one of the key arguments!"))
           | _ => Except.error (Err.typeError "component body has no keys"))
      | _ =>
          Except.error (Err.parsingError
            "Component root should be list of dicts of length one with its component.name as a key!")
  | Yaml.str s =>
      if s.length == 1 then
        Except.error (Err.typeError "component entry has no keys")
      else
        Except.error (Err.parsingError
          "Component root should be list of dicts of length one with its component.name as a key!")
  | Yaml.seq items =>
      if items.length == 1 then
        Except.error (Err.typeError "component entry has no keys")
      else
        Except.error (Err.parsingError
          "Component root should be list of dicts of length one with its component.name as a key!")

/-- The components loop of `Builder.build_pipeline`: each component is parsed
in order and the resulting tasks are collected in the same order. -/
def parseComponents : List Yaml → Except Err (List Task)
  | [] => Except.ok []
  | c :: rest => do
      let t ← parseComponent c
      let ts ← parseComponents rest
      return t :: ts

/-- Embedding of class `Pipeline` from `MLPipeline/pipeline.py` (not in the
visible source), per the specification's data model: a name (whatever value
the definition tree held), the ordered task list, the externally supplied
input consumables in insertion order, and the expected final output names. -/
structure Pipeline : Type where
  name : Yaml
  tasks : List Task
  external_inputs : List Consumable
  expected_outputs : List String

/-- Modelled from the spec: `Pipeline.add_task` appends one task, preserving
insertion order (`tasks` is an ordered sequence, insertion order =
declaration order). -/
def Pipeline.add_task (p : Pipeline) (t : Task) : Pipeline :=
  { p with tasks := p.tasks ++ [t] }

/-- Modelled from the spec: `Pipeline.add_input` records one externally
supplied consumable (the specification keys `external_inputs` by name; we
keep the insertion sequence, which determines that mapping). -/
def Pipeline.add_input (p : Pipeline) (c : Consumable) : Pipeline :=
  { p with external_inputs := p.external_inputs ++ [c] }

/-- Modelled from the spec: `Pipeline.add_output` records one expected final
output name. -/
def Pipeline.add_output (p : Pipeline) (o : String) : Pipeline :=
  { p with expected_outputs := p.expected_outputs ++ [o] }

/-- Embedding of the base-level check of `Builder.build_pipeline`
(pipeline_builder.py lines 87-93): `self.parsed_yaml.get('pipeline')` must
be truthy, else `PipelineParsingError("Missing pipeline definition.")`. -/
def getPipelineContent (parsed_yaml : List (String × Yaml)) : Except Err Yaml :=
  match ymGet parsed_yaml "pipeline" with
  | some v =>
      if v.truthy then Except.ok v
      else Except.error (Err.parsingError "Missing pipeline definition.")
  | none => Except.error (Err.parsingError "Missing pipeline definition.")

/-- Embedding of the required-key check of `Builder.build_pipeline`
(pipeline_builder.py lines 95-99): `list(pipeline_content.keys())` requires
a mapping (else an attribute error), and the keys must include `name`,
`inputs`, `outputs` and `components`, else
`PipelineParsingError("Pipeline missing key attributes.")`. -/
def checkRequiredKeys (content : Yaml) : Except Err (List (String × Yaml)) :=
  match content with
  | Yaml.map kvs =>
      if is_subset_of ["name", "inputs", "outputs", "components"] (ymKeys kvs) then
        Except.ok kvs
      else Except.error (Err.parsingError "Pipeline missing key attributes.")
  | _ => Except.error (Err.typeError "pipeline content has no keys")

/-- Embedding of the inputs loop of `Builder.build_pipeline`
(pipeline_builder.py lines 133-139): every declared pipeline input must be
found among the command-line inputs, in which case a `Consumable` is
constructed from the input name and the supplied value (with the
constructor's default empty `parent_task_name`) and added to the pipeline;
otherwise `PipelineParsingError` naming the input.  A non-string declared
input would be an unhashable dictionary probe (a Python `TypeError`). -/
def addInputs (command_line_inputs : List (String × String)) (p : Pipeline) :
    List Yaml → Except Err Pipeline
  | [] => Except.ok p
  | Yaml.str n :: rest =>
      match lookupStr command_line_inputs n with
      | some v => addInputs command_line_inputs (p.add_input (Consumable.make n v)) rest
      | none =>
          Except.error (Err.parsingError
            ("Pipeline declared input " ++ n ++ " not found in command line inputs!"))
  | _ :: _ => Except.error (Err.typeError "unhashable pipeline input name")

/-- Embedding of the outputs loop of `Builder.build_pipeline`
(pipeline_builder.py lines 143-145): each declared output is added to the
pipeline's expected outputs unless it is already present.  Output names are
taken to be strings per the definition-tree interface of the
specification. -/
def addOutputs (p : Pipeline) : List Yaml → Except Err Pipeline
  | [] => Except.ok p
  | Yaml.str o :: rest =>
      if p.expected_outputs.contains o then addOutputs p rest
      else addOutputs (p.add_output o) rest
  | _ :: _ => Except.error (Err.typeError "expected output name is not a string")

/-- Embedding of `Builder.build_pipeline` (pipeline_builder.py lines 67-147,
`bad_yaml` fixed to its default `False`), without the verbosity side
channel: the base-level check, the required-key check, pipeline creation
from the definition's `name`, the components loop, the inputs loop and the
outputs loop, in source order. -/
def build_pipeline_result (parsed_yaml : List (String × Yaml))
    (command_line_inputs : List (String × String)) : Except Err Pipeline := do
  let contentY ← getPipelineContent parsed_yaml
  let pc ← checkRequiredKeys contentY
  let nameV ← (match ymGet pc "name" with
    | some v => Except.ok v
    | none => Except.error (Err.typeError "key error: name"))
  let compsV ← (match ymGet pc "components" with
    | some v => Except.ok v
    | none => Except.error (Err.typeError "key error: components"))
  let ts ← parseComponents (pyIter compsV)
  let p0 : Pipeline := { name := nameV, tasks := [], external_inputs := [], expected_outputs := [] }
  let p1 := ts.foldl Pipeline.add_task p0
  let inputsV ← (match ymGet pc "inputs" with
    | some v => Except.ok v
    | none => Except.error (Err.typeError "key error: inputs"))
  let p2 ← addInputs command_line_inputs p1 (pyIter inputsV)
  let outputsV ← (match ymGet pc "outputs" with
    | some v => Except.ok v
    | none => Except.error (Err.typeError "key error: outputs"))
  let p3 ← addOutputs p2 (pyIter outputsV)
  return p3

/-- The full names a task produces: one `task_name.output_name` per declared
output, per the specification's dotted addressing scheme. -/
def Task.outputFullNames (t : Task) : List String :=
  t.declared_outputs.map (fun o => t.name ++ "." ++ o)

/-- The input reference values of a task: the full names it depends on. -/
def refsOf (t : Task) : List String :=
  t.input_refs.map (fun kv => kv.2)

/-- Modelled from the spec: the lookup table of resolution step 1 — every
full name of an external input and every task's every declared output. -/
def Pipeline.producedNames (p : Pipeline) : List String :=
  p.external_inputs.map Consumable.full_name ++ p.tasks.flatMap Task.outputFullNames

/-- The first name occurring twice in a list, if any (used to report a
`DuplicateOutputDefinition`). -/
def firstDup : List String → Option String
  | [] => none
  | x :: xs => if xs.contains x then some x else firstDup xs

/-- Modelled from the spec: resolution step 2 for one task — each input
reference is looked up in the table (missing references fail with
`UnresolvedReference` naming the task and the reference), and a reference to
one of the task's own outputs fails with `CyclicDependency`. -/
def checkTaskRefs (table : List String) (t : Task) : List String → Except Err Unit
  | [] => Except.ok ()
  | r :: rest =>
      if !table.contains r then Except.error (Err.unresolvedReference t.name r)
      else if (Task.outputFullNames t).contains r then
        Except.error (Err.cyclicDependency t.name)
      else checkTaskRefs table t rest

/-- Modelled from the spec: resolution step 2 over all tasks, in order. -/
def checkAllRefs (table : List String) : List Task → Except Err Unit
  | [] => Except.ok ()
  | t :: ts => do
      checkTaskRefs table t (refsOf t)
      checkAllRefs table ts

/-- A task is ready when each of its input references is already available. -/
def Task.ready (t : Task) (avail : List String) : Bool :=
  (refsOf t).all (fun r => avail.contains r)

/-- The first ready task of a list together with the list with that task
removed, when one exists.  Taking the first ready task realises the
specification's stable tie-break (declaration order). -/
def pickReady (avail : List String) : List Task → Option (Task × List Task)
  | [] => none
  | t :: ts =>
      if t.ready avail then some (t, ts)
      else
        match pickReady avail ts with
        | some (u, rest) => some (u, t :: rest)
        | none => none

/-- Modelled from the spec: resolution steps 3-4 — a stable topological sort
of the tasks.  Repeatedly emit the first task all of whose references are
available, making its outputs available; when tasks remain but none is
ready, a cycle exists and resolution fails with `CyclicDependency` naming
one remaining task.  The fuel argument bounds the number of emissions; it is
called with the task-list length, which suffices since each emission removes
one task. -/
def topoGo : Nat → List Task → List String → Except Err (List Task)
  | _, [], _ => Except.ok []
  | 0, t :: _, _ => Except.error (Err.cyclicDependency t.name)
  | Nat.succ fuel, t0 :: ts, avail =>
      match pickReady avail (t0 :: ts) with
      | some (t, rest) =>
          (topoGo fuel rest (avail ++ Task.outputFullNames t)).map (fun order => t :: order)
      | none => Except.error (Err.cyclicDependency t0.name)

/-- Modelled from the spec: `Pipeline` graph resolution (section 4.4) —
build the lookup table and fail with `DuplicateOutputDefinition` when two
producers claim the same full name; check every task's references; compute
the stable topological order. -/
def Pipeline.resolve (p : Pipeline) : Except Err (List Task) :=
  match firstDup p.producedNames with
  | some n => Except.error (Err.duplicateOutputDefinition n)
  | none => do
      checkAllRefs p.producedNames p.tasks
      topoGo p.tasks.length p.tasks (p.external_inputs.map Consumable.full_name)

/-- Modelled from the spec: execution (section 4.5) runs tasks strictly in
the resolved topological order, so the schedule of executed task names is
the resolved order; when resolution fails, the error is propagated and no
task executes (no schedule is produced). -/
def Pipeline.runSchedule (p : Pipeline) : Except Err (List String) :=
  (p.resolve).map (fun order => order.map (fun t => t.name))

/-- Embedding of `Builder.build_pipeline` including its observable verbosity
behaviour: the returned value together with the lines printed during the
build (`"Building pipeline..."` exactly when `verbose` is set,
pipeline_builder.py lines 76-83). -/
def build_pipeline (parsed_yaml : List (String × Yaml))
    (command_line_inputs : List (String × String)) (verbose : Bool) :
    Except Err Pipeline × List String :=
  (build_pipeline_result parsed_yaml command_line_inputs,
   if verbose then ["Building pipeline..."] else [])

/-! Helper lemmas about `Except` binds, used to trace the builder's stages. -/

theorem ok_bind {α β : Type} (a : α) (f : α → Except Err β) :
    (Except.ok a >>= f) = f a := rfl

theorem error_bind {α β : Type} (e : Err) (f : α → Except Err β) :
    ((Except.error e : Except Err α) >>= f) = Except.error e := rfl

theorem bind_ok_inv {α β : Type} {x : Except Err α} {f : α → Except Err β} {b : β}
    (h : (x >>= f) = Except.ok b) : ∃ a, x = Except.ok a ∧ f a = Except.ok b := by
  cases x with
  | ok a => exact ⟨a, rfl, h⟩
  | error e => exact absurd h (by simp [error_bind])

/-- C1: for every `Consumable`, the derived `full_name` is the dotted string
when `parent_task_name` is non-empty and the bare `name` when it is empty;
`full_name` is a derived function of the stored fields (`Consumable` stores
only `content`, `name` and `parent_task_name`), never a stored field. -/
theorem C1_full_name_derivation (c : Consumable) :
    (c.parent_task_name ≠ "" → c.full_name = c.parent_task_name ++ "." ++ c.name) ∧
    (c.parent_task_name = "" → c.full_name = c.name) := by
  constructor <;> intro h <;> simp [Consumable.full_name, h]

/-- Witness for C1 at concrete consumables. -/
theorem C1_full_name_derivation_witness :
    (Consumable.make "x" "c" "t").full_name = "t" ++ "." ++ "x" ∧
    (Consumable.make "y" "c").full_name = "y" :=
  ⟨(C1_full_name_derivation (Consumable.make "x" "c" "t")).1 (by decide),
   (C1_full_name_derivation (Consumable.make "y" "c")).2 rfl⟩

/-- C5 counterexample: the `Consumable` constructor performs no validation,
so constructing a `Consumable` with an empty `name` does not fail — it
succeeds and stores the empty name.  This refutes the claim that a non-empty
`name` is required. -/
theorem C5_empty_name_accepted :
    Consumable.make "" "payload" =
      { content := "payload", name := "", parent_task_name := "" } := rfl

/-- C5 (amended): the `Consumable` constructor accepts any `name`, including
the empty string, storing the fields unchanged; `parent_task_name` may be
omitted and defaults to the empty string. -/
theorem C5_constructor_stores_fields (name content : String) :
    (Consumable.make name content).name = name ∧
    (Consumable.make name content).content = content ∧
    (Consumable.make name content).parent_task_name = "" :=
  ⟨rfl, rfl, rfl⟩

/-- C10: the `verbose` flag of `Builder.build_pipeline` does not influence
the returned value — for every parsed definition and command-line inputs,
the verbose and non-verbose builds either fail with the same error or
return pipelines with identical name, tasks, external inputs and expected
outputs (`verbose` only controls the printed lines). -/
theorem C10_verbose_independent (parsed_yaml : List (String × Yaml))
    (command_line_inputs : List (String × String)) :
    (∃ e, (build_pipeline parsed_yaml command_line_inputs true).1 = Except.error e ∧
          (build_pipeline parsed_yaml command_line_inputs false).1 = Except.error e) ∨
    (∃ p q, (build_pipeline parsed_yaml command_line_inputs true).1 = Except.ok p ∧
            (build_pipeline parsed_yaml command_line_inputs false).1 = Except.ok q ∧
            p.name = q.name ∧ p.tasks = q.tasks ∧
            p.external_inputs = q.external_inputs ∧
            p.expected_outputs = q.expected_outputs) := by
  cases h : build_pipeline_result parsed_yaml command_line_inputs with
  | error e => exact Or.inl ⟨e, h, h⟩
  | ok p => exact Or.inr ⟨p, p, h, h, rfl, rfl, rfl, rfl⟩

/-- A list of required keys is not a subset when one of them is missing. -/
theorem is_subset_of_eq_false {req keys : List String} {k : String}
    (hk : k ∈ req) (hmem : k ∉ keys) : is_subset_of req keys = false := by
  unfold is_subset_of
  rw [List.all_eq_false]
  exact ⟨k, hk, by simpa using hmem⟩

/-- C3: if the definition tree has no `pipeline` entry, `build_pipeline`
fails with `PipelineParsingError`; and if the `pipeline` entry is a mapping
lacking any of the required keys `name`, `inputs`, `outputs`, `components`,
`build_pipeline` fails with `PipelineParsingError`.  In both cases no
`Pipeline` is returned, and the failure occurs in the base-level checks,
before the components loop constructs any task. -/
theorem C3_structural_validation (parsed_yaml : List (String × Yaml))
    (command_line_inputs : List (String × String)) :
    (ymGet parsed_yaml "pipeline" = none →
      build_pipeline_result parsed_yaml command_line_inputs =
        Except.error (Err.parsingError "Missing pipeline definition.")) ∧
    (∀ kvs, ymGet parsed_yaml "pipeline" = some (Yaml.map kvs) →
      (∃ k ∈ (["name", "inputs", "outputs", "components"] : List String), k ∉ ymKeys kvs) →
      ∃ msg, build_pipeline_result parsed_yaml command_line_inputs =
        Except.error (Err.parsingError msg)) := by
  constructor
  · intro h
    simp [build_pipeline_result, getPipelineContent, h, error_bind]
  · rintro kvs h ⟨k, hk, hmem⟩
    cases hkvs : kvs.isEmpty with
    | true =>
        refine ⟨"Missing pipeline definition.", ?_⟩
        simp [build_pipeline_result, getPipelineContent, h, Yaml.truthy, hkvs, error_bind]
    | false =>
        refine ⟨"Pipeline missing key attributes.", ?_⟩
        have hsub := is_subset_of_eq_false hk hmem
        simp [build_pipeline_result, getPipelineContent, h, Yaml.truthy, hkvs,
          checkRequiredKeys, hsub, ok_bind, error_bind]

/-- Witness for C3: a tree with no `pipeline` entry and a tree whose
`pipeline` mapping lacks the `components` key. -/
theorem C3_structural_validation_witness :
    build_pipeline_result [] [] =
      Except.error (Err.parsingError "Missing pipeline definition.") ∧
    (∃ msg, build_pipeline_result [("pipeline", Yaml.map [("name", Yaml.str "p")])] [] =
      Except.error (Err.parsingError msg)) :=
  ⟨(C3_structural_validation [] []).1 rfl,
   (C3_structural_validation [("pipeline", Yaml.map [("name", Yaml.str "p")])] []).2
     [("name", Yaml.str "p")] rfl
     ⟨"components", by decide, by decide⟩⟩

/-- A task spawned successfully carries the component name it was spawned
with. -/
theorem spawn_task_ok_name {task_name : String} {r i o : Yaml} {t : Task}
    (h : spawn_task task_name r i o = Except.ok t) : t.name = task_name := by
  unfold spawn_task at h
  repeat' split at h
  all_goals first
    | exact (congrArg Task.name (Except.ok.inj h)).symm
    | exact absurd h (by simp)

/-- A component entry that parses to a task is a singleton mapping whose
single key is the task's name. -/
theorem parseComponent_ok_shape {component : Yaml} {t : Task}
    (h : parseComponent component = Except.ok t) :
    ∃ body, component = Yaml.map [(t.name, body)] := by
  cases component with
  | str s =>
      exfalso
      by_cases hl : s.length = 1 <;> simp [parseComponent, hl] at h
  | seq items =>
      exfalso
      by_cases hl : items.length = 1 <;> simp [parseComponent, hl] at h
  | map kvs =>
      match kvs, h with
      | [], h => exact absurd h (by simp [parseComponent])
      | (a, b) :: (c, d) :: rest, h => exact absurd h (by simp [parseComponent])
      | [(c_name, body)], h =>
          refine ⟨body, ?_⟩
          have hname : t.name = c_name := by
            cases body with
            | map bkvs =>
                simp only [parseComponent] at h
                split at h
                · split at h
                  · split at h
                    · exact spawn_task_ok_name h
                    · exact absurd h (by simp)
                  · exact absurd h (by simp)
                · exact absurd h (by simp)
            | str s => exact absurd h (by simp [parseComponent])
            | seq items => exact absurd h (by simp [parseComponent])
          rw [hname]

/-- C4 counterexample: a components entry that is the one-character string
`"a"` is a singleton non-mapping; the builder's length-1 check passes and
the subsequent key access fails with a Python attribute error, not with
`PipelineParsingError`.  This refutes the claim that such an entry raises
`PipelineParsingError`. -/
theorem C4_singleton_nonmapping_component :
    build_pipeline_result
      [("pipeline", Yaml.map
        [("name", Yaml.str "p"),
         ("inputs", Yaml.seq []),
         ("outputs", Yaml.seq []),
         ("components", Yaml.seq [Yaml.str "a"])])] [] =
      Except.error (Err.typeError "component entry has no keys") ∧
    (∀ msg, build_pipeline_result
      [("pipeline", Yaml.map
        [("name", Yaml.str "p"),
         ("inputs", Yaml.seq []),
         ("outputs", Yaml.seq []),
         ("components", Yaml.seq [Yaml.str "a"])])] [] ≠
      Except.error (Err.parsingError msg)) := by
  have h1 : build_pipeline_result
      [("pipeline", Yaml.map
        [("name", Yaml.str "p"),
         ("inputs", Yaml.seq []),
         ("outputs", Yaml.seq []),
         ("components", Yaml.seq [Yaml.str "a"])])] [] =
      Except.error (Err.typeError "component entry has no keys") := rfl
  refine ⟨h1, fun msg h2 => ?_⟩
  rw [h1] at h2
  exact Err.noConfusion (Except.error.inj h2)

/-- C4 (amended): for every entry of the `components` sequence, the builder
raises `PipelineParsingError` when the entry is a mapping with a number of
keys other than one, and likewise when it is a non-mapping whose length
differs from one; a singleton non-mapping entry instead fails with a Python
type/attribute error (never `PipelineParsingError`); a singleton mapping
whose component mapping lacks any of the keys `runner`, `inputs`, `outputs`
raises `PipelineParsingError` naming the component; and whenever a task is
produced from an entry, the entry was a singleton mapping and its single
key is the task's name.  (`parseComponent` embeds one iteration of the
components loop of `Builder.build_pipeline`.) -/
theorem C4_component_entry_validation (component : Yaml) :
    (∀ kvs, component = Yaml.map kvs → kvs.length ≠ 1 →
      parseComponent component = Except.error (Err.parsingError
        "Component root should be list of dicts of length one with its component.name as a key!")) ∧
    (∀ s, component = Yaml.str s →
      (s.length ≠ 1 → parseComponent component = Except.error (Err.parsingError
        "Component root should be list of dicts of length one with its component.name as a key!")) ∧
      (s.length = 1 →
        parseComponent component = Except.error (Err.typeError "component entry has no keys") ∧
        ∀ msg, parseComponent component ≠ Except.error (Err.parsingError msg))) ∧
    (∀ items, component = Yaml.seq items →
      (items.length ≠ 1 → parseComponent component = Except.error (Err.parsingError
        "Component root should be list of dicts of length one with its component.name as a key!")) ∧
      (items.length = 1 →
        parseComponent component = Except.error (Err.typeError "component entry has no keys") ∧
        ∀ msg, parseComponent component ≠ Except.error (Err.parsingError msg))) ∧
    (∀ c_name bkvs, component = Yaml.map [(c_name, Yaml.map bkvs)] →
      (∃ k ∈ (["runner", "inputs", "outputs"] : List String), k ∉ ymKeys bkvs) →
      parseComponent component = Except.error (Err.parsingError
        ("Component " ++ c_name ++ " missing one of the key arguments!"))) ∧
    (∀ t, parseComponent component = Except.ok t →
      ∃ body, component = Yaml.map [(t.name, body)]) := by
  refine ⟨?_, ?_, ?_, ?_, ?_⟩
  · rintro kvs rfl hlen
    match kvs with
    | [] => rfl
    | [(a, b)] => exact absurd rfl hlen
    | (a, b) :: (c, d) :: rest => rfl
  · rintro s rfl
    constructor
    · intro hlen
      have hb : (s.length == 1) = false := by simpa using hlen
      simp [parseComponent, hb]
    · intro hlen
      have hb : (s.length == 1) = true := by simpa using hlen
      have he : parseComponent (Yaml.str s) =
          Except.error (Err.typeError "component entry has no keys") := by
        simp [parseComponent, hb]
      refine ⟨he, fun msg hmsg => ?_⟩
      rw [he] at hmsg
      exact Err.noConfusion (Except.error.inj hmsg)
  · rintro items rfl
    constructor
    · intro hlen
      have hb : (items.length == 1) = false := by simpa using hlen
      simp [parseComponent, hb]
    · intro hlen
      have hb : (items.length == 1) = true := by simpa using hlen
      have he : parseComponent (Yaml.seq items) =
          Except.error (Err.typeError "component entry has no keys") := by
        simp [parseComponent, hb]
      refine ⟨he, fun msg hmsg => ?_⟩
      rw [he] at hmsg
      exact Err.noConfusion (Except.error.inj hmsg)
  · rintro c_name bkvs rfl ⟨k, hk, hmem⟩
    have hsub := is_subset_of_eq_false hk hmem
    simp [parseComponent, hsub]
  · exact fun t h => parseComponent_ok_shape h

/-- Witness for C4 (amended) at concrete component entries. -/
theorem C4_component_entry_validation_witness :
    parseComponent (Yaml.map []) = Except.error (Err.parsingError
      "Component root should be list of dicts of length one with its component.name as a key!") ∧
    (∃ body, Yaml.map [("c", Yaml.map
      [("runner", Yaml.str "noop"),
       ("inputs", Yaml.map [("r", Yaml.str "raw")]),
       ("outputs", Yaml.seq [Yaml.str "o"])])] =
      Yaml.map [((Task.mk "c" "noop" [("r", "raw")] ["o"]).name, body)]) :=
  ⟨(C4_component_entry_validation (Yaml.map [])).1 [] rfl (by decide),
   (C4_component_entry_validation (Yaml.map [("c", Yaml.map
      [("runner", Yaml.str "noop"),
       ("inputs", Yaml.map [("r", Yaml.str "raw")]),
       ("outputs", Yaml.seq [Yaml.str "o"])])])).2.2.2.2
     (Task.mk "c" "noop" [("r", "raw")] ["o"]) rfl⟩

/-! Structural lemmas tracing the builder's stages. -/

theorem foldl_add_task_tasks (ts : List Task) (p : Pipeline) :
    (ts.foldl Pipeline.add_task p).tasks = p.tasks ++ ts := by
  induction ts generalizing p with
  | nil => simp
  | cons t rest ih => simp [ih, Pipeline.add_task]

theorem foldl_add_task_external (ts : List Task) (p : Pipeline) :
    (ts.foldl Pipeline.add_task p).external_inputs = p.external_inputs := by
  induction ts generalizing p with
  | nil => rfl
  | cons t rest ih => simp [ih, Pipeline.add_task]

theorem foldl_add_task_expected (ts : List Task) (p : Pipeline) :
    (ts.foldl Pipeline.add_task p).expected_outputs = p.expected_outputs := by
  induction ts generalizing p with
  | nil => rfl
  | cons t rest ih => simp [ih, Pipeline.add_task]

/-- Successful component parsing produces one task per entry, in order, each
named by its entry's single key. -/
theorem parseComponents_shape : ∀ {items : List Yaml} {ts : List Task},
    parseComponents items = Except.ok ts →
    List.Forall₂ (fun c t => ∃ body, c = Yaml.map [(Task.name t, body)]) items ts := by
  intro items
  induction items with
  | nil => intro ts h; cases ts with
      | nil => exact List.Forall₂.nil
      | cons t rest => exact absurd h (by simp [parseComponents])
  | cons c rest ih =>
      intro ts h
      unfold parseComponents at h
      obtain ⟨t, ht, h⟩ := bind_ok_inv h
      obtain ⟨ts', hts, h⟩ := bind_ok_inv h
      have : t :: ts' = ts := by simpa [pure, Except.pure] using h
      subst this
      exact List.Forall₂.cons (parseComponent_ok_shape ht) (ih hts)

/-- Successful processing of the inputs loop appends exactly one external
consumable per declared input name, built from the supplied command-line
value with the constructor's default empty parent; it succeeds only when
every declared input is supplied, and it touches nothing else. -/
theorem addInputs_ok_inv : ∀ {items : List Yaml}
    {command_line_inputs : List (String × String)} {p q : Pipeline},
    addInputs command_line_inputs p items = Except.ok q →
    ∃ ns : List String, items = ns.map Yaml.str ∧
      q.external_inputs = p.external_inputs ++
        ns.map (fun n => Consumable.make n ((lookupStr command_line_inputs n).getD "")) ∧
      (∀ n ∈ ns, (lookupStr command_line_inputs n).isSome) ∧
      q.tasks = p.tasks ∧ q.expected_outputs = p.expected_outputs ∧ q.name = p.name := by
  intro items
  induction items with
  | nil =>
      intro cli p q h
      have : p = q := by simpa [addInputs] using h
      subst this
      exact ⟨[], by simp⟩
  | cons item rest ih =>
      intro cli p q h
      cases item with
      | str n =>
          unfold addInputs at h
          cases hl : lookupStr cli n with
          | none => rw [hl] at h; exact absurd h (by simp)
          | some v =>
              rw [hl] at h
              obtain ⟨ns, hitems, hext, hsome, hts, hout, hname⟩ := ih h
              refine ⟨n :: ns, by simp [hitems], ?_, ?_, ?_, ?_, ?_⟩
              · simp [hext, Pipeline.add_input, hl]
              · intro m hm
                cases hm with
                | head => simp [hl]
                | tail _ hm => exact hsome m hm
              · simpa [Pipeline.add_input] using hts
              · simpa [Pipeline.add_input] using hout
              · simpa [Pipeline.add_input] using hname
      | seq xs => exact absurd h (by simp [addInputs])
      | map kvs => exact absurd h (by simp [addInputs])

/-- When some declared input is missing from the command-line inputs, the
inputs loop fails with `PipelineParsingError` naming the first missing
input. -/
theorem addInputs_missing_error : ∀ (ns : List String)
    (command_line_inputs : List (String × String)) (p : Pipeline),
    (∃ n ∈ ns, lookupStr command_line_inputs n = none) →
    ∃ n, n ∈ ns ∧ lookupStr command_line_inputs n = none ∧
      addInputs command_line_inputs p (ns.map Yaml.str) =
        Except.error (Err.parsingError
          ("Pipeline declared input " ++ n ++ " not found in command line inputs!")) := by
  intro ns
  induction ns with
  | nil => rintro cli p ⟨n, hn, _⟩; exact absurd hn (by simp)
  | cons n rest ih =>
      rintro cli p ⟨m, hm, hmiss⟩
      cases hl : lookupStr cli n with
      | none =>
          exact ⟨n, List.mem_cons_self n rest, hl, by simp [addInputs, hl]⟩
      | some v =>
          have hm' : m ∈ rest := by
            cases hm with
            | head => exact absurd hmiss (by simp [hl])
            | tail _ h => exact h
          obtain ⟨k, hk, hkmiss, hrec⟩ :=
            ih cli (p.add_input (Consumable.make n v)) ⟨m, hm', hmiss⟩
          exact ⟨k, List.mem_cons_of_mem n hk, hkmiss, by simp [addInputs, hl, hrec]⟩

/-- Successful processing of the outputs loop preserves the rest of the
pipeline, keeps the expected outputs duplicate-free, and registers exactly
the declared output names. -/
theorem addOutputs_ok_inv : ∀ {items : List Yaml} {p q : Pipeline},
    addOutputs p items = Except.ok q →
    q.tasks = p.tasks ∧ q.external_inputs = p.external_inputs ∧ q.name = p.name ∧
    (p.expected_outputs.Nodup → q.expected_outputs.Nodup) ∧
    (∀ o, o ∈ q.expected_outputs ↔ o ∈ p.expected_outputs ∨ Yaml.str o ∈ items) := by
  intro items
  induction items with
  | nil =>
      intro p q h
      have : p = q := by simpa [addOutputs] using h
      subst this
      exact ⟨rfl, rfl, rfl, fun hn => hn, by simp⟩
  | cons item rest ih =>
      intro p q h
      cases item with
      | str o =>
          unfold addOutputs at h
          cases hc : p.expected_outputs.contains o with
          | true =>
              rw [hc] at h
              simp only [if_true] at h
              obtain ⟨hts, hext, hname, hnd, hmem⟩ := ih h
              refine ⟨hts, hext, hname, hnd, fun x => ?_⟩
              rw [hmem x]
              constructor
              · rintro (hx | hx)
                · exact Or.inl hx
                · exact Or.inr (List.mem_cons_of_mem _ hx)
              · rintro (hx | hx)
                · exact Or.inl hx
                · cases hx with
                  | head =>
                      exact Or.inl (by simpa using hc)
                  | tail _ hx => exact Or.inr hx
          | false =>
              rw [hc] at h
              simp only [if_false, Bool.false_eq_true] at h
              obtain ⟨hts, hext, hname, hnd, hmem⟩ := ih h
              have hno : o ∉ p.expected_outputs := by simpa using hc
              refine ⟨by simpa [Pipeline.add_output] using hts,
                      by simpa [Pipeline.add_output] using hext,
                      by simpa [Pipeline.add_output] using hname,
                      fun hpn => hnd (List.nodup_append.2
                        ⟨hpn, List.nodup_singleton o, fun a ha hb => by
                          cases List.mem_singleton.mp hb; exact hno ha⟩),
                      fun x => ?_⟩
              rw [hmem x]
              simp only [Pipeline.add_output, List.mem_append, List.mem_singleton]
              constructor
              · rintro ((hx | hx) | hx)
                · exact Or.inl hx
                · exact Or.inr (by simp [hx])
                · exact Or.inr (List.mem_cons_of_mem _ hx)
              · rintro (hx | hx)
                · exact Or.inl (Or.inl hx)
                · cases hx with
                  | head => exact Or.inl (Or.inr rfl)
                  | tail _ hx => exact Or.inr hx
      | seq xs => exact absurd h (by simp [addOutputs])
      | map kvs => exact absurd h (by simp [addOutputs])

/-- Inversion of a successful build: every stage succeeded, in source
order. -/
theorem build_ok_inv {parsed_yaml : List (String × Yaml)}
    {command_line_inputs : List (String × String)} {p : Pipeline}
    (h : build_pipeline_result parsed_yaml command_line_inputs = Except.ok p) :
    ∃ contentY pc nameV compsV ts inputsV p2 outputsV,
      getPipelineContent parsed_yaml = Except.ok contentY ∧
      checkRequiredKeys contentY = Except.ok pc ∧
      ymGet pc "name" = some nameV ∧
      ymGet pc "components" = some compsV ∧
      parseComponents (pyIter compsV) = Except.ok ts ∧
      ymGet pc "inputs" = some inputsV ∧
      addInputs command_line_inputs
        (ts.foldl Pipeline.add_task (Pipeline.mk nameV [] [] []))
        (pyIter inputsV) = Except.ok p2 ∧
      ymGet pc "outputs" = some outputsV ∧
      addOutputs p2 (pyIter outputsV) = Except.ok p := by
  unfold build_pipeline_result at h
  obtain ⟨contentY, h1, h⟩ := bind_ok_inv h
  obtain ⟨pc, h2, h⟩ := bind_ok_inv h
  obtain ⟨nameV, h3, h⟩ := bind_ok_inv h
  obtain ⟨compsV, h4, h⟩ := bind_ok_inv h
  obtain ⟨ts, h5, h⟩ := bind_ok_inv h
  obtain ⟨inputsV, h6, h⟩ := bind_ok_inv h
  obtain ⟨p2, h7, h⟩ := bind_ok_inv h
  obtain ⟨outputsV, h8, h⟩ := bind_ok_inv h
  obtain ⟨p3, h9, h⟩ := bind_ok_inv h
  have hp3 : p3 = p := by simpa [pure, Except.pure] using h
  subst hp3
  have h3' : ymGet pc "name" = some nameV := by
    cases hx : ymGet pc "name" <;> rw [hx] at h3 <;> simp_all
  have h4' : ymGet pc "components" = some compsV := by
    cases hx : ymGet pc "components" <;> rw [hx] at h4 <;> simp_all
  have h6' : ymGet pc "inputs" = some inputsV := by
    cases hx : ymGet pc "inputs" <;> rw [hx] at h6 <;> simp_all
  have h8' : ymGet pc "outputs" = some outputsV := by
    cases hx : ymGet pc "outputs" <;> rw [hx] at h8 <;> simp_all
  exact ⟨contentY, pc, nameV, compsV, ts, inputsV, p2, outputsV,
    h1, h2, h3', h4', h5, h6', h7, h8', h9⟩

/-- When the stages before the inputs loop succeed and the inputs loop
fails, the whole build fails with the inputs loop's error. -/
theorem build_error_at_inputs {parsed_yaml : List (String × Yaml)}
    {command_line_inputs : List (String × String)}
    {contentY : Yaml} {pc : List (String × Yaml)} {nameV compsV : Yaml}
    {ts : List Task} {inputsV : Yaml} {e : Err}
    (h1 : getPipelineContent parsed_yaml = Except.ok contentY)
    (h2 : checkRequiredKeys contentY = Except.ok pc)
    (h3 : ymGet pc "name" = some nameV)
    (h4 : ymGet pc "components" = some compsV)
    (h5 : parseComponents (pyIter compsV) = Except.ok ts)
    (h6 : ymGet pc "inputs" = some inputsV)
    (ha : addInputs command_line_inputs
        (ts.foldl Pipeline.add_task (Pipeline.mk nameV [] [] []))
        (pyIter inputsV) = Except.error e) :
    build_pipeline_result parsed_yaml command_line_inputs = Except.error e := by
  simp only [build_pipeline_result, h1, ok_bind, h2, h3, h4, h5, h6, ha, error_bind]

/-- C2: every consumable the builder constructs for a declared pipeline
input is built with the constructor's default empty `parent_task_name`, so
its `full_name` is the bare input name — the signal marking it as
externally supplied. -/
theorem C2_external_inputs_bare {parsed_yaml : List (String × Yaml)}
    {command_line_inputs : List (String × String)} {p : Pipeline}
    (h : build_pipeline_result parsed_yaml command_line_inputs = Except.ok p) :
    ∀ c ∈ p.external_inputs, c.parent_task_name = "" ∧ c.full_name = c.name := by
  obtain ⟨contentY, pc, nameV, compsV, ts, inputsV, p2, outputsV,
    h1, h2, h3, h4, h5, h6, h7, h8, h9⟩ := build_ok_inv h
  obtain ⟨_, hext2, _, _, _⟩ := addOutputs_ok_inv h9
  obtain ⟨ns, _, hext, _, _, _, _⟩ := addInputs_ok_inv h7
  intro c hc
  rw [hext2, hext, foldl_add_task_external] at hc
  simp only [List.append_nil, List.nil_append, List.mem_map] at hc
  obtain ⟨n, _, rfl⟩ := hc
  exact ⟨rfl, by simp [Consumable.make, Consumable.full_name]⟩

/-- Body of the single component of the concrete example definition. -/
def exampleComponentBody : Yaml :=
  Yaml.map
    [("runner", Yaml.str "noop"),
     ("inputs", Yaml.map [("r", Yaml.str "raw")]),
     ("outputs", Yaml.seq [Yaml.str "clean_data"])]

/-- The components sequence of the concrete example definition. -/
def exampleComponents : Yaml :=
  Yaml.seq [Yaml.map [("clean", exampleComponentBody)]]

/-- The pipeline mapping of the concrete example definition (note the
deliberately repeated declared output). -/
def examplePipelineContent : List (String × Yaml) :=
  [("name", Yaml.str "p"),
   ("inputs", Yaml.seq [Yaml.str "raw"]),
   ("outputs", Yaml.seq [Yaml.str "out", Yaml.str "out"]),
   ("components", exampleComponents)]

/-- Definition tree of a small well-formed pipeline, used as the concrete
input of several witnesses. -/
def exampleDefinition : List (String × Yaml) :=
  [("pipeline", Yaml.map examplePipelineContent)]

/-- Command-line inputs matching `exampleDefinition`. -/
def exampleInputs : List (String × String) := [("raw", "x")]

/-- The task parsed from the example definition's single component. -/
def exampleTask : Task := Task.mk "clean" "noop" [("r", "raw")] ["clean_data"]

/-- The pipeline built from `exampleDefinition` and `exampleInputs`. -/
def examplePipeline : Pipeline :=
  Pipeline.mk (Yaml.str "p") [exampleTask] [Consumable.make "raw" "x"] ["out"]

/-- Witness for C2: the external consumable of the concrete build has an
empty parent and a bare full name. -/
theorem C2_external_inputs_bare_witness :
    (Consumable.make "raw" "x").parent_task_name = "" ∧
    (Consumable.make "raw" "x").full_name = (Consumable.make "raw" "x").name :=
  @C2_external_inputs_bare exampleDefinition exampleInputs examplePipeline rfl
    (Consumable.make "raw" "x") (by simp [examplePipeline])

/-- C6: the builder adds tasks to the pipeline in exactly the order their
components appear in the definition's `components` sequence — the task list
pairs up with the component entries in order, each task named by its entry's
single key (insertion order is declaration order, not execution order). -/
theorem C6_tasks_follow_declaration_order {parsed_yaml : List (String × Yaml)}
    {command_line_inputs : List (String × String)} {p : Pipeline}
    {contentY : Yaml} {pc : List (String × Yaml)} {compsV : Yaml}
    (h : build_pipeline_result parsed_yaml command_line_inputs = Except.ok p)
    (h1 : getPipelineContent parsed_yaml = Except.ok contentY)
    (h2 : checkRequiredKeys contentY = Except.ok pc)
    (hc : ymGet pc "components" = some compsV) :
    List.Forall₂ (fun c t => ∃ body, c = Yaml.map [(Task.name t, body)])
      (pyIter compsV) p.tasks := by
  obtain ⟨contentY', pc', nameV, compsV', ts, inputsV, p2, outputsV,
    g1, g2, g3, g4, g5, g6, g7, g8, g9⟩ := build_ok_inv h
  cases Except.ok.inj (g1.symm.trans h1)
  cases Except.ok.inj (g2.symm.trans h2)
  cases Option.some.inj (g4.symm.trans hc)
  obtain ⟨hts9, _, _, _, _⟩ := addOutputs_ok_inv g9
  obtain ⟨ns, _, _, _, hts7, _, _⟩ := addInputs_ok_inv g7
  have hp : p.tasks = ts := by
    rw [hts9, hts7, foldl_add_task_tasks]
    simp
  rw [hp]
  exact parseComponents_shape g5

/-- Witness for C6 at the concrete example build. -/
theorem C6_tasks_follow_declaration_order_witness :
    List.Forall₂ (fun c t => ∃ body, c = Yaml.map [(Task.name t, body)])
      (pyIter exampleComponents) examplePipeline.tasks :=
  @C6_tasks_follow_declaration_order exampleDefinition exampleInputs
    examplePipeline (Yaml.map examplePipelineContent) examplePipelineContent
    exampleComponents rfl rfl rfl rfl

/-- C8: when the stages before the inputs loop succeed and the declared
inputs are the names `ns`, a missing command-line value for one of them
makes `build_pipeline` fail with `PipelineParsingError` naming that input;
and when a pipeline is returned, every declared input had a supplied value
and exactly one external consumable was added per declared input, named by
it and carrying the supplied value as its content. -/
theorem C8_declared_inputs_checked {parsed_yaml : List (String × Yaml)}
    {command_line_inputs : List (String × String)}
    {contentY : Yaml} {pc : List (String × Yaml)} {nameV compsV : Yaml}
    {ts : List Task} {inputsV : Yaml} {ns : List String}
    (h1 : getPipelineContent parsed_yaml = Except.ok contentY)
    (h2 : checkRequiredKeys contentY = Except.ok pc)
    (h3 : ymGet pc "name" = some nameV)
    (h4 : ymGet pc "components" = some compsV)
    (h5 : parseComponents (pyIter compsV) = Except.ok ts)
    (h6 : ymGet pc "inputs" = some inputsV)
    (hns : pyIter inputsV = ns.map Yaml.str) :
    ((∃ n ∈ ns, lookupStr command_line_inputs n = none) →
      ∃ n, n ∈ ns ∧ lookupStr command_line_inputs n = none ∧
        build_pipeline_result parsed_yaml command_line_inputs =
          Except.error (Err.parsingError
            ("Pipeline declared input " ++ n ++ " not found in command line inputs!"))) ∧
    (∀ p, build_pipeline_result parsed_yaml command_line_inputs = Except.ok p →
      (∀ n ∈ ns, (lookupStr command_line_inputs n).isSome) ∧
      p.external_inputs.map Consumable.name = ns ∧
      (∀ c ∈ p.external_inputs, lookupStr command_line_inputs c.name = some c.content)) := by
  constructor
  · intro hmiss
    obtain ⟨n, hn, hnone, herr⟩ := addInputs_missing_error ns command_line_inputs
      (ts.foldl Pipeline.add_task (Pipeline.mk nameV [] [] [])) hmiss
    refine ⟨n, hn, hnone, ?_⟩
    exact build_error_at_inputs h1 h2 h3 h4 h5 h6 (by rw [hns]; exact herr)
  · intro p hp
    obtain ⟨contentY', pc', nameV', compsV', ts', inputsV', p2, outputsV,
      g1, g2, g3, g4, g5, g6, g7, g8, g9⟩ := build_ok_inv hp
    cases Except.ok.inj (g1.symm.trans h1)
    cases Except.ok.inj (g2.symm.trans h2)
    cases Option.some.inj (g3.symm.trans h3)
    cases Option.some.inj (g4.symm.trans h4)
    cases Except.ok.inj (g5.symm.trans h5)
    cases Option.some.inj (g6.symm.trans h6)
    obtain ⟨ns', hitems, hext, hsome, _, _, _⟩ := addInputs_ok_inv g7
    have hns2 : ns' = ns := by
      have := hitems.symm.trans hns
      exact List.map_injective_iff.mpr (fun a b hab => Yaml.str.inj hab) this
    rw [hns2] at hext hsome
    obtain ⟨_, hext9, _, _, _⟩ := addOutputs_ok_inv g9
    have hpext : p.external_inputs =
        ns.map (fun n => Consumable.make n ((lookupStr command_line_inputs n).getD "")) := by
      rw [hext9, hext, foldl_add_task_external]
      simp
    refine ⟨hsome, ?_, ?_⟩
    · have hid : (Consumable.name ∘ fun n =>
          Consumable.make n ((lookupStr command_line_inputs n).getD "")) = id :=
        funext fun n => rfl
      rw [hpext, List.map_map, hid, List.map_id]
    · intro c hc
      rw [hpext] at hc
      simp only [List.mem_map] at hc
      obtain ⟨n, hn, rfl⟩ := hc
      have := hsome n hn
      cases hv : lookupStr command_line_inputs n with
      | none => rw [hv] at this; exact absurd this (by simp)
      | some v => simp [Consumable.make, hv]

/-- Witness for C8 at the concrete example build. -/
theorem C8_declared_inputs_checked_witness :
    examplePipeline.external_inputs.map Consumable.name = ["raw"] :=
  ((@C8_declared_inputs_checked exampleDefinition exampleInputs
      (Yaml.map examplePipelineContent) examplePipelineContent (Yaml.str "p")
      exampleComponents [exampleTask] (Yaml.seq [Yaml.str "raw"]) ["raw"]
      rfl rfl rfl rfl rfl rfl rfl).2 examplePipeline rfl).2.1

/-- C9: registering expected outputs is duplicate-free — on a successful
build the pipeline's expected outputs contain no duplicates, and a name is
registered exactly when it occurs among the definition's declared outputs
(a name repeated in the sequence yields a single entry; adding an
already-present output is a no-op). -/
theorem C9_expected_outputs_duplicate_free {parsed_yaml : List (String × Yaml)}
    {command_line_inputs : List (String × String)} {p : Pipeline}
    {contentY : Yaml} {pc : List (String × Yaml)} {outputsV : Yaml}
    (h : build_pipeline_result parsed_yaml command_line_inputs = Except.ok p)
    (h1 : getPipelineContent parsed_yaml = Except.ok contentY)
    (h2 : checkRequiredKeys contentY = Except.ok pc)
    (ho : ymGet pc "outputs" = some outputsV) :
    p.expected_outputs.Nodup ∧
    (∀ o, o ∈ p.expected_outputs ↔ Yaml.str o ∈ pyIter outputsV) := by
  obtain ⟨contentY', pc', nameV, compsV, ts, inputsV, p2, outputsV',
    g1, g2, g3, g4, g5, g6, g7, g8, g9⟩ := build_ok_inv h
  cases Except.ok.inj (g1.symm.trans h1)
  cases Except.ok.inj (g2.symm.trans h2)
  cases Option.some.inj (g8.symm.trans ho)
  obtain ⟨_, _, _, hnd, hmem⟩ := addOutputs_ok_inv g9
  obtain ⟨ns, _, _, _, _, hexp7, _⟩ := addInputs_ok_inv g7
  have hexp2 : p2.expected_outputs = [] := by
    rw [hexp7, foldl_add_task_expected]
  refine ⟨hnd (by rw [hexp2]; exact List.nodup_nil), fun o => ?_⟩
  rw [hmem o, hexp2]
  simp

/-- Witness for C9 at the concrete example build, whose definition repeats
the declared output `out`. -/
theorem C9_expected_outputs_duplicate_free_witness :
    examplePipeline.expected_outputs.Nodup ∧
    ("out" ∈ examplePipeline.expected_outputs ↔
      Yaml.str "out" ∈ pyIter (Yaml.seq [Yaml.str "out", Yaml.str "out"])) :=
  ⟨(@C9_expected_outputs_duplicate_free exampleDefinition exampleInputs
      examplePipeline (Yaml.map examplePipelineContent) examplePipelineContent
      (Yaml.seq [Yaml.str "out", Yaml.str "out"]) rfl rfl rfl rfl).1,
   (@C9_expected_outputs_duplicate_free exampleDefinition exampleInputs
      examplePipeline (Yaml.map examplePipelineContent) examplePipelineContent
      (Yaml.seq [Yaml.str "out", Yaml.str "out"]) rfl rfl rfl rfl).2 "out"⟩

/-! Lemmas about the modelled graph resolution, leading to C7. -/

theorem firstDup_eq_none_of_nodup : ∀ {l : List String}, l.Nodup → firstDup l = none := by
  intro l
  induction l with
  | nil => intro _; rfl
  | cons x xs ih =>
      intro h
      rw [List.nodup_cons] at h
      simp [firstDup, h.1, ih h.2]

theorem pickReady_sound : ∀ {l : List Task} {avail : List String} {t : Task}
    {rest : List Task}, pickReady avail l = some (t, rest) →
    t.ready avail = true ∧ l.Perm (t :: rest) := by
  intro l
  induction l with
  | nil => intro avail t rest h; exact absurd h (by simp [pickReady])
  | cons u us ih =>
      intro avail t rest h
      unfold pickReady at h
      cases hr : u.ready avail with
      | true =>
          rw [hr] at h
          simp only [if_true] at h
          obtain ⟨ht, hrest⟩ := Prod.mk.injEq .. ▸ Option.some.inj h
          subst ht; subst hrest
          exact ⟨hr, List.Perm.refl _⟩
      | false =>
          rw [hr] at h
          simp only [Bool.false_eq_true, if_false] at h
          cases hp : pickReady avail us with
          | none => rw [hp] at h; exact absurd h (by simp)
          | some pr =>
              obtain ⟨v, rr⟩ := pr
              rw [hp] at h
              obtain ⟨ht, hrest⟩ := Prod.mk.injEq .. ▸ Option.some.inj h
              subst ht; subst hrest
              obtain ⟨hready, hperm⟩ := ih hp
              exact ⟨hready, (hperm.cons u).trans (List.Perm.swap v u rr)⟩

/-- When two tasks each wait for a full name only the other can make
available, the topological sort gets stuck and reports a cycle. -/
theorem topoGo_stuck (X Y : Task) (fnX fnY : String)
    (hrX : fnY ∈ refsOf X) (hrY : fnX ∈ refsOf Y) :
    ∀ (fuel : Nat) (remaining : List Task) (avail : List String),
    X ∈ remaining → Y ∈ remaining →
    fnX ∉ avail → fnY ∉ avail →
    (∀ t ∈ remaining, fnX ∈ Task.outputFullNames t → t = X) →
    (∀ t ∈ remaining, fnY ∈ Task.outputFullNames t → t = Y) →
    ∃ n, topoGo fuel remaining avail = Except.error (Err.cyclicDependency n) := by
  intro fuel
  induction fuel with
  | zero =>
      intro remaining avail hX _ _ _ _ _
      cases remaining with
      | nil => exact absurd hX (by simp)
      | cons t ts => exact ⟨t.name, rfl⟩
  | succ fuel ih =>
      intro remaining avail hX hY hnX hnY honlyX honlyY
      cases remaining with
      | nil => exact absurd hX (by simp)
      | cons t0 ts =>
          cases hpick : pickReady avail (t0 :: ts) with
          | none => exact ⟨t0.name, by simp [topoGo, hpick]⟩
          | some pr =>
              obtain ⟨t, rest⟩ := pr
              obtain ⟨hready, hperm⟩ := pickReady_sound hpick
              have hXnotready : X.ready avail = false := by
                unfold Task.ready
                rw [List.all_eq_false]
                exact ⟨fnY, hrX, by simp [hnY]⟩
              have hYnotready : Y.ready avail = false := by
                unfold Task.ready
                rw [List.all_eq_false]
                exact ⟨fnX, hrY, by simp [hnX]⟩
              have htX : t ≠ X := by
                intro he
                rw [he, hXnotready] at hready
                exact Bool.noConfusion hready
              have htY : t ≠ Y := by
                intro he
                rw [he, hYnotready] at hready
                exact Bool.noConfusion hready
              have ht_in : t ∈ t0 :: ts := hperm.mem_iff.mpr (List.mem_cons_self t rest)
              have hXrest : X ∈ rest := by
                cases hperm.mem_iff.mp hX with
                | head => exact absurd rfl htX
                | tail _ hmem => exact hmem
              have hYrest : Y ∈ rest := by
                cases hperm.mem_iff.mp hY with
                | head => exact absurd rfl htY
                | tail _ hmem => exact hmem
              have hmem_rest : ∀ u ∈ rest, u ∈ t0 :: ts := fun u hu =>
                hperm.mem_iff.mpr (List.mem_cons_of_mem t hu)
              have hnX' : fnX ∉ avail ++ Task.outputFullNames t := by
                intro hmem
                rcases List.mem_append.mp hmem with hmem | hmem
                · exact hnX hmem
                · exact htX (honlyX t ht_in hmem)
              have hnY' : fnY ∉ avail ++ Task.outputFullNames t := by
                intro hmem
                rcases List.mem_append.mp hmem with hmem | hmem
                · exact hnY hmem
                · exact htY (honlyY t ht_in hmem)
              obtain ⟨n, hn⟩ := ih rest (avail ++ Task.outputFullNames t)
                hXrest hYrest hnX' hnY'
                (fun u hu hout => honlyX u (hmem_rest u hu) hout)
                (fun u hu hout => honlyY u (hmem_rest u hu) hout)
              exact ⟨n, by simp [topoGo, hpick, hn, Except.map]⟩

theorem checkTaskRefs_ok_or_cyclic (table : List String) (t : Task) :
    ∀ rs : List String, (∀ r ∈ rs, r ∈ table) →
    checkTaskRefs table t rs = Except.ok () ∨
      checkTaskRefs table t rs = Except.error (Err.cyclicDependency t.name) := by
  intro rs
  induction rs with
  | nil => intro _; exact Or.inl rfl
  | cons r rest ih =>
      intro h
      have hcm : r ∈ table := h r (List.mem_cons_self r rest)
      cases hs : (Task.outputFullNames t).contains r with
      | true =>
          have hsm : r ∈ Task.outputFullNames t := by simpa using hs
          exact Or.inr (by simp [checkTaskRefs, hcm, hsm])
      | false =>
          have hsm : r ∉ Task.outputFullNames t := by simpa using hs
          cases ih (fun x hx => h x (List.mem_cons_of_mem r hx)) with
          | inl hok => exact Or.inl (by simp [checkTaskRefs, hcm, hsm, hok])
          | inr herr => exact Or.inr (by simp [checkTaskRefs, hcm, hsm, herr])

theorem checkAllRefs_ok_or_cyclic (table : List String) :
    ∀ tasks : List Task, (∀ t ∈ tasks, ∀ r ∈ refsOf t, r ∈ table) →
    checkAllRefs table tasks = Except.ok () ∨
      ∃ n, checkAllRefs table tasks = Except.error (Err.cyclicDependency n) := by
  intro tasks
  induction tasks with
  | nil => intro _; exact Or.inl rfl
  | cons t rest ih =>
      intro h
      cases checkTaskRefs_ok_or_cyclic table t (refsOf t)
          (h t (List.mem_cons_self t rest)) with
      | inl hok =>
          cases ih (fun u hu => h u (List.mem_cons_of_mem t hu)) with
          | inl hok2 => exact Or.inl (by simp [checkAllRefs, hok, hok2, ok_bind])
          | inr herr =>
              obtain ⟨n, herr⟩ := herr
              exact Or.inr ⟨n, by simp [checkAllRefs, hok, herr, ok_bind]⟩
      | inr herr =>
          exact Or.inr ⟨t.name, by simp [checkAllRefs, herr, error_bind]⟩

/-- C7: for every pipeline in which task X references an output of task Y
and task Y references an output of task X (and the producer table is
otherwise well-formed: no duplicate produced full names and every reference
resolvable), graph resolution fails with `CyclicDependency`, and the run
schedule propagates that error, so no task executes. -/
theorem C7_mutual_cycle_detected (p : Pipeline) (X Y : Task) (a b : String)
    (hX : X ∈ p.tasks) (hY : Y ∈ p.tasks)
    (ha : a ∈ Y.declared_outputs) (hb : b ∈ X.declared_outputs)
    (hrX : (Y.name ++ "." ++ a) ∈ refsOf X)
    (hrY : (X.name ++ "." ++ b) ∈ refsOf Y)
    (hnodup : p.producedNames.Nodup)
    (hres : ∀ t ∈ p.tasks, ∀ r ∈ refsOf t, r ∈ p.producedNames) :
    ∃ n, p.resolve = Except.error (Err.cyclicDependency n) ∧
         p.runSchedule = Except.error (Err.cyclicDependency n) := by
  have hfd : firstDup p.producedNames = none := firstDup_eq_none_of_nodup hnodup
  have hfnX : (X.name ++ "." ++ b) ∈ Task.outputFullNames X :=
    List.mem_map.mpr ⟨b, hb, rfl⟩
  have hfnY : (Y.name ++ "." ++ a) ∈ Task.outputFullNames Y :=
    List.mem_map.mpr ⟨a, ha, rfl⟩
  have hflatX : (X.name ++ "." ++ b) ∈ p.tasks.flatMap Task.outputFullNames :=
    List.mem_flatMap.mpr ⟨X, hX, hfnX⟩
  have hflatY : (Y.name ++ "." ++ a) ∈ p.tasks.flatMap Task.outputFullNames :=
    List.mem_flatMap.mpr ⟨Y, hY, hfnY⟩
  have hdisj : (p.external_inputs.map Consumable.full_name).Disjoint
      (p.tasks.flatMap Task.outputFullNames) :=
    List.disjoint_of_nodup_append hnodup
  have hnXext : (X.name ++ "." ++ b) ∉ p.external_inputs.map Consumable.full_name :=
    fun hmem => hdisj hmem hflatX
  have hnYext : (Y.name ++ "." ++ a) ∉ p.external_inputs.map Consumable.full_name :=
    fun hmem => hdisj hmem hflatY
  have hflatnd : (p.tasks.flatMap Task.outputFullNames).Nodup :=
    (List.nodup_append.mp hnodup).2.1
  have hpair := (List.nodup_flatMap.mp hflatnd).2
  have honly : ∀ (Z : Task) (fn : String), Z ∈ p.tasks → fn ∈ Task.outputFullNames Z →
      ∀ t ∈ p.tasks, fn ∈ Task.outputFullNames t → t = Z := by
    intro Z fn hZ hfn t ht hout
    by_contra hne
    exact List.Pairwise.forall (fun x y hxy => List.Disjoint.symm hxy) hpair ht hZ hne
      hout hfn
  have honlyX := honly X (X.name ++ "." ++ b) hX hfnX
  have honlyY := honly Y (Y.name ++ "." ++ a) hY hfnY
  cases checkAllRefs_ok_or_cyclic p.producedNames p.tasks hres with
  | inr herr =>
      obtain ⟨n, herr⟩ := herr
      have e1 : p.resolve = Except.error (Err.cyclicDependency n) := by
        simp [Pipeline.resolve, hfd, herr, error_bind]
      exact ⟨n, e1, by simp [Pipeline.runSchedule, e1, Except.map]⟩
  | inl hok =>
      obtain ⟨n, hn⟩ := topoGo_stuck X Y (X.name ++ "." ++ b) (Y.name ++ "." ++ a)
        hrX hrY p.tasks.length p.tasks (p.external_inputs.map Consumable.full_name)
        hX hY hnXext hnYext honlyX honlyY
      have e1 : p.resolve = Except.error (Err.cyclicDependency n) := by
        simp [Pipeline.resolve, hfd, hok, hn, ok_bind]
      exact ⟨n, e1, by simp [Pipeline.runSchedule, e1, Except.map]⟩

/-- A concrete pipeline with two mutually dependent tasks. -/
def cyclicTaskX : Task := Task.mk "x" "noop" [("d", "y.a")] ["b"]

/-- The partner of `cyclicTaskX`, closing the two-task cycle. -/
def cyclicTaskY : Task := Task.mk "y" "noop" [("d", "x.b")] ["a"]

/-- The two mutually dependent tasks assembled into a pipeline. -/
def cyclicPipeline : Pipeline :=
  Pipeline.mk (Yaml.str "p") [cyclicTaskX, cyclicTaskY] [] []

/-- Witness for C7 at the concrete two-task cyclic pipeline. -/
theorem C7_mutual_cycle_detected_witness :
    ∃ n, cyclicPipeline.resolve = Except.error (Err.cyclicDependency n) ∧
         cyclicPipeline.runSchedule = Except.error (Err.cyclicDependency n) :=
  C7_mutual_cycle_detected cyclicPipeline cyclicTaskX cyclicTaskY "a" "b"
    (by decide) (by decide) (by decide) (by decide)
    (by decide) (by decide) (by decide) (by decide)

end MLPipeline
